import Mathlib

/-!
Shallow embedding of the ikat-api client SDK (src/ikat-v2.ts), a thin client
for a remote file-hosting service.  Strings are modelled as lists of
characters; the HTTP transport and the remote service are modelled as an
explicit collaborator record supplying the outcome of each remote call, and
each client operation additionally returns the list of remote calls it issued.
-/

/-- Strings are modelled as lists of characters. -/
abbrev Str := List Char

/-- View a Lean string literal as a model string. -/
def str (s : String) : Str := s.data

namespace IkatApi

/-- Prepend a character to the first segment of a split result (the empty
split result gets a fresh one-character segment). -/
def consHead (c : Char) : List Str → List Str
  | [] => [[c]]
  | seg :: segs => (c :: seg) :: segs

/-- JavaScript `value.split(sep)` for a one-character separator: the list of
segments between occurrences of `sep`, empty segments included, always
non-empty. -/
def jsSplit (sep : Char) : Str → List Str
  | [] => [[]]
  | c :: rest => if c = sep then [] :: jsSplit sep rest else consHead c (jsSplit sep rest)

/-- JavaScript `array.pop()` read as the last element of a list, with the
empty list mapped to the empty string (unreachable for split results). -/
def lastD : List Str → Str
  | [] => []
  | [a] => a
  | _ :: b :: rest => lastD (b :: rest)

/-- `extractKey` from src/ikat-v2.ts:
`value.includes('/') ? value.split('/').pop()! : value`. -/
def extractKey (value : Str) : Str :=
  if value.contains '/' then lastD (jsSplit '/' value) else value

/-- Failure surfaced by the HTTP collaborator (axios): a transport-level
message `err.message` and, when the remote service answered with an error
body, that body's `message` field (`err.response.data.message`). -/
structure HttpErr where
  message : Str
  responseMessage : Option Str
  deriving DecidableEq

/-- The expression `err?.response?.data?.message || err.message` from the
catch blocks of src/ikat-v2.ts: the response body's message when it is
present and truthy (non-empty), else the transport message. -/
def errDetails (e : HttpErr) : Str :=
  match e.responseMessage with
  | some m => if m = [] then e.message else m
  | none => e.message

/-- The operation tag `[<operationName>] ` that opens every wrapped error
message. -/
def opTag (op : Str) : Str := '[' :: op ++ ']' :: ' ' :: []

/-- The wrapped error message `[<operationName>] <details>` thrown by the
catch blocks of the single-item operations. -/
def wrapMsg (op : Str) (e : HttpErr) : Str := opTag op ++ errDetails e

/-- A browser `File` object, reduced to the part the client reads: its name.
The opaque content only flows through to the collaborator. -/
structure FileObj where
  name : Str
  deriving DecidableEq

/-- One remote call issued by the client, as observed by the collaborator. -/
inductive Event where
  | uploadCall (bucket : Str) (file : FileObj) (allowPublicAccess : Bool)
  | deleteCall (bucket : Str) (key : Str)
  | listCall (bucket : Str)
  | deleteBucketCall (bucket : Str)
  deriving DecidableEq

/-- Recognizer for deletion calls in a trace. -/
def isDeleteCall : Event → Bool
  | Event.deleteCall _ _ => true
  | _ => false

/-- The external collaborator (HTTP transport plus remote service): for each
kind of remote request, the decoded response body or the failure.  The
response body types `U`, `D`, `L`, `B` (upload, delete, list, delete-bucket)
are opaque. -/
structure Collab (U D L B : Type) where
  uploadResult : Str → FileObj → Bool → Except HttpErr U
  deleteResult : Str → Str → Except HttpErr D
  listResult : Str → Except HttpErr L
  deleteBucketResult : Str → Except HttpErr B

namespace IkatV2

variable {U D L B : Type}

/-- `IkatV2.upload`: posts the file to `/upload/<bucket>` and returns the
decoded body; any failure is re-thrown as `[upload] <details>`.  The second
component is the trace of remote calls issued. -/
def upload (c : Collab U D L B) (bucket : Str) (file : FileObj) (pub : Bool) :
    Except Str U × List Event :=
  (match c.uploadResult bucket file pub with
   | Except.ok r => Except.ok r
   | Except.error e => Except.error (wrapMsg (str "upload") e),
   [Event.uploadCall bucket file pub])

/-- `IkatV2.list`: gets `/files/<bucket>`; failures become `[list] <details>`. -/
def list (c : Collab U D L B) (bucket : Str) : Except Str L × List Event :=
  (match c.listResult bucket with
   | Except.ok r => Except.ok r
   | Except.error e => Except.error (wrapMsg (str "list") e),
   [Event.listCall bucket])

/-- `IkatV2.remove`: normalizes the key via `extractKey`, posts the deletion,
and re-throws failures as `[remove] <details>`. -/
def remove (c : Collab U D L B) (bucket : Str) (key : Str) :
    Except Str D × List Event :=
  let finalKey := extractKey key
  (match c.deleteResult bucket finalKey with
   | Except.ok r => Except.ok r
   | Except.error e => Except.error (wrapMsg (str "remove") e),
   [Event.deleteCall bucket finalKey])

/-- `IkatV2.deleteBucket`: posts `/files/delete-bucket`; failures become
`[deleteBucket] <details>`. -/
def deleteBucket (c : Collab U D L B) (bucket : Str) :
    Except Str B × List Event :=
  (match c.deleteBucketResult bucket with
   | Except.ok r => Except.ok r
   | Except.error e => Except.error (wrapMsg (str "deleteBucket") e),
   [Event.deleteBucketCall bucket])

/-- `IkatV2.replace`: when `oldUrl` is supplied and truthy (non-empty), first
extracts its key and attempts a remove, swallowing any failure (only a
non-production console warning is emitted, which has no observable effect
here), then uploads the new file and returns the upload outcome. -/
def replace (c : Collab U D L B) (bucket : Str) (file : FileObj)
    (oldUrl : Option Str) (pub : Bool) : Except Str U × List Event :=
  match oldUrl with
  | some u =>
    if u = [] then upload c bucket file pub
    else
      let key := extractKey u
      let r1 := remove c bucket key
      let r2 := upload c bucket file pub
      (r2.1, r1.2 ++ r2.2)
  | none => upload c bucket file pub

/-- One entry of the result array of `IkatV2.deleteMultiple`: the normalized
key, the success flag, and on failure the captured error message. -/
structure DeleteEntry where
  key : Str
  success : Bool
  error : Option Str
  deriving DecidableEq

/-- `IkatV2.deleteMultiple`: iterates over the raw keys in order, normalizes
each, attempts the single-item remove, and pushes a per-item result entry;
a caught failure is recorded in the entry and iteration continues. -/
def deleteMultiple (c : Collab U D L B) (bucket : Str) (keys : List Str) :
    List DeleteEntry × List Event :=
  match keys with
  | [] => ([], [])
  | rawKey :: restKeys =>
    let key := extractKey rawKey
    let r := remove c bucket key
    let entry : DeleteEntry :=
      match r.1 with
      | Except.ok _ => ⟨key, true, none⟩
      | Except.error m => ⟨key, false, some m⟩
    let rest := deleteMultiple c bucket restKeys
    (entry :: rest.1, r.2 ++ rest.2)

/-- One entry of the result array of `IkatV2.uploadMultiple`: the file name,
the success flag, on success the decoded response, on failure the captured
error message. -/
structure UploadEntry (U : Type) where
  file : Str
  success : Bool
  data : Option U
  error : Option Str
  deriving DecidableEq

/-- `IkatV2.uploadMultiple`: iterates over the files in order, attempts the
single-item upload for each, and pushes a per-item result entry; a caught
failure is recorded in the entry and iteration continues. -/
def uploadMultiple (c : Collab U D L B) (bucket : Str) (files : List FileObj)
    (pub : Bool) : List (UploadEntry U) × List Event :=
  match files with
  | [] => ([], [])
  | file :: restFiles =>
    let r := upload c bucket file pub
    let entry : UploadEntry U :=
      match r.1 with
      | Except.ok res => ⟨file.name, true, some res, none⟩
      | Except.error m => ⟨file.name, false, none, some m⟩
    let rest := uploadMultiple c bucket restFiles pub
    (entry :: rest.1, r.2 ++ rest.2)

end IkatV2

/-- A collaborator whose deletions always fail (with a transport-level error)
while uploads, listings and bucket deletions succeed. -/
def failingDeleteCollab : Collab Nat Nat Nat Nat where
  uploadResult := fun _ _ _ => Except.ok 7
  deleteResult := fun _ _ => Except.error ⟨str "boom", none⟩
  listResult := fun _ => Except.ok 0
  deleteBucketResult := fun _ => Except.ok 0

/-- A collaborator whose remote calls all fail with a transport-level error. -/
def failingAllCollab : Collab Nat Nat Nat Nat where
  uploadResult := fun _ _ _ => Except.error ⟨str "boom", none⟩
  deleteResult := fun _ _ => Except.error ⟨str "boom", none⟩
  listResult := fun _ => Except.error ⟨str "boom", none⟩
  deleteBucketResult := fun _ => Except.error ⟨str "boom", none⟩

/-- A failure whose response body carries a message field that is present but
empty, alongside a non-empty transport message. -/
def emptyMsgErr : HttpErr := ⟨str "network down", some (str "")⟩

/-- A collaborator whose remote calls all fail with `emptyMsgErr`. -/
def emptyMsgCollab : Collab Nat Nat Nat Nat where
  uploadResult := fun _ _ _ => Except.error emptyMsgErr
  deleteResult := fun _ _ => Except.error emptyMsgErr
  listResult := fun _ => Except.error emptyMsgErr
  deleteBucketResult := fun _ => Except.error emptyMsgErr

theorem consHead_length (c : Char) (l : List Str) (h : l ≠ []) :
    (consHead c l).length = l.length := by
  cases l with
  | nil => exact absurd rfl h
  | cons seg segs => rfl

theorem jsSplit_ne_nil (sep : Char) (s : Str) : jsSplit sep s ≠ [] := by
  cases s with
  | nil => simp [jsSplit]
  | cons c rest =>
    simp only [jsSplit]
    by_cases h : c = sep
    · simp [h]
    · simp only [if_neg h]
      cases jsSplit sep rest with
      | nil => simp [consHead]
      | cons seg segs => simp [consHead]

theorem jsSplit_of_not_mem (sep : Char) (s : Str) (h : sep ∉ s) : jsSplit sep s = [s] := by
  induction s with
  | nil => rfl
  | cons c rest ih =>
    have hc : c ≠ sep := fun he => h (he ▸ List.mem_cons_self c rest)
    have hr : sep ∉ rest := fun hm => h (List.mem_cons_of_mem c hm)
    simp [jsSplit, hc, ih hr, consHead]

theorem two_le_length_jsSplit (sep : Char) (s : Str) (h : sep ∈ s) :
    2 ≤ (jsSplit sep s).length := by
  induction s with
  | nil => cases h
  | cons c rest ih =>
    by_cases hc : c = sep
    · have h1 : 1 ≤ (jsSplit sep rest).length :=
        List.length_pos.mpr (jsSplit_ne_nil sep rest)
      simp only [jsSplit, if_pos hc, List.length_cons]
      omega
    · have hr : sep ∈ rest := by
        cases List.mem_cons.mp h with
        | inl he => exact absurd he.symm hc
        | inr hm => exact hm
      have ihr := ih hr
      have hne : jsSplit sep rest ≠ [] := jsSplit_ne_nil sep rest
      simp only [jsSplit, if_neg hc, consHead_length c _ hne]
      exact ihr

theorem lastD_cons_of_ne_nil (x : Str) (l : List Str) (h : l ≠ []) :
    lastD (x :: l) = lastD l := by
  cases l with
  | nil => exact absurd rfl h
  | cons a l => rfl

theorem lastD_consHead (c : Char) (l : List Str) (h : 2 ≤ l.length) :
    lastD (consHead c l) = lastD l := by
  cases l with
  | nil => simp at h
  | cons seg segs =>
    cases segs with
    | nil => simp at h
    | cons seg2 segs2 => rfl

theorem lastD_mem (l : List Str) (h : l ≠ []) : lastD l ∈ l := by
  induction l with
  | nil => exact absurd rfl h
  | cons a l ih =>
    cases l with
    | nil => simp [lastD]
    | cons b rest =>
      have hstep : lastD (a :: b :: rest) = lastD (b :: rest) := rfl
      rw [hstep]
      exact List.mem_cons_of_mem a (ih (by simp))

theorem lastD_jsSplit_append (sep : Char) (pre suf : Str) :
    lastD (jsSplit sep (pre ++ sep :: suf)) = lastD (jsSplit sep suf) := by
  induction pre with
  | nil =>
    simp only [List.nil_append, jsSplit, if_pos rfl]
    exact lastD_cons_of_ne_nil _ _ (jsSplit_ne_nil sep suf)
  | cons c pre ih =>
    have hstep : jsSplit sep ((c :: pre) ++ sep :: suf)
        = if c = sep then [] :: jsSplit sep (pre ++ sep :: suf)
          else consHead c (jsSplit sep (pre ++ sep :: suf)) := rfl
    rw [hstep]
    by_cases hc : c = sep
    · rw [if_pos hc, lastD_cons_of_ne_nil _ _ (jsSplit_ne_nil sep (pre ++ sep :: suf))]
      exact ih
    · have hmem : sep ∈ pre ++ sep :: suf :=
        List.mem_append_right pre (List.mem_cons_self sep suf)
      rw [if_neg hc, lastD_consHead c _ (two_le_length_jsSplit sep _ hmem)]
      exact ih

theorem not_mem_of_mem_jsSplit (sep : Char) (s : Str) :
    ∀ t, t ∈ jsSplit sep s → sep ∉ t := by
  induction s with
  | nil =>
    intro t ht
    simp only [jsSplit, List.mem_singleton] at ht
    simp [ht]
  | cons c rest ih =>
    intro t ht
    by_cases hc : c = sep
    · simp only [jsSplit, if_pos hc, List.mem_cons] at ht
      cases ht with
      | inl he => simp [he]
      | inr hm => exact ih t hm
    · simp only [jsSplit, if_neg hc] at ht
      cases hE : jsSplit sep rest with
      | nil => exact absurd hE (jsSplit_ne_nil sep rest)
      | cons seg segs =>
        rw [hE] at ht
        simp only [consHead, List.mem_cons] at ht
        cases ht with
        | inl he =>
          subst he
          intro hmem
          cases List.mem_cons.mp hmem with
          | inl h1 => exact hc h1.symm
          | inr h2 =>
            exact ih seg (hE ▸ List.mem_cons_self seg segs) h2
        | inr hm => exact ih t (hE ▸ List.mem_cons_of_mem seg hm)

theorem contains_eq_true_iff (s : Str) (c : Char) : s.contains c = true ↔ c ∈ s := by
  simp [List.contains]

theorem extractKey_of_not_mem (s : Str) (h : '/' ∉ s) : extractKey s = s := by
  have hn : ¬(s.contains '/' = true) := fun hcc =>
    h ((contains_eq_true_iff s '/').mp hcc)
  rw [extractKey, if_neg hn]

theorem extractKey_append_sep (pre suf : Str) (h : '/' ∉ suf) :
    extractKey (pre ++ '/' :: suf) = suf := by
  have hmem : '/' ∈ pre ++ '/' :: suf :=
    List.mem_append_right pre (List.mem_cons_self _ suf)
  have hc : (pre ++ '/' :: suf).contains '/' = true :=
    (contains_eq_true_iff _ '/').mpr hmem
  rw [extractKey, if_pos hc, lastD_jsSplit_append, jsSplit_of_not_mem '/' suf h]
  rfl

theorem extractKey_contains_eq_false (s : Str) : (extractKey s).contains '/' = false := by
  by_cases h : '/' ∈ s
  · have hc : s.contains '/' = true := (contains_eq_true_iff s '/').mpr h
    rw [extractKey, if_pos hc, Bool.eq_false_iff]
    intro hcc
    exact not_mem_of_mem_jsSplit '/' s _
      (lastD_mem _ (jsSplit_ne_nil '/' s))
      ((contains_eq_true_iff _ '/').mp hcc)
  · rw [extractKey_of_not_mem s h, Bool.eq_false_iff]
    intro hcc
    exact h ((contains_eq_true_iff s '/').mp hcc)

theorem extractKey_idem (x : Str) : extractKey (extractKey x) = extractKey x :=
  extractKey_of_not_mem (extractKey x)
    (fun hm => by
      have := extractKey_contains_eq_false x
      rw [Bool.eq_false_iff] at this
      exact this ((contains_eq_true_iff _ '/').mpr hm))

namespace IkatV2

variable {U D L B : Type}

theorem deleteMultiple_fst_map (c : Collab U D L B) (bucket : Str) (keys : List Str) :
    (deleteMultiple c bucket keys).1 = keys.map (fun k =>
      match c.deleteResult bucket (extractKey k) with
      | Except.ok _ => ⟨extractKey k, true, none⟩
      | Except.error e => ⟨extractKey k, false, some (wrapMsg (str "remove") e)⟩) := by
  induction keys with
  | nil => rfl
  | cons rawKey restKeys ih =>
    simp only [deleteMultiple, remove, List.map_cons, extractKey_idem]
    cases hres : c.deleteResult bucket (extractKey rawKey) <;> simp [hres, ih]

theorem deleteMultiple_snd_map (c : Collab U D L B) (bucket : Str) (keys : List Str) :
    (deleteMultiple c bucket keys).2
      = keys.map (fun k => Event.deleteCall bucket (extractKey k)) := by
  induction keys with
  | nil => rfl
  | cons rawKey restKeys ih =>
    simp only [deleteMultiple, remove, List.map_cons, extractKey_idem]
    simp [ih]

theorem uploadMultiple_fst_map (c : Collab U D L B) (bucket : Str)
    (files : List FileObj) (pub : Bool) :
    (uploadMultiple c bucket files pub).1 = files.map (fun f =>
      match c.uploadResult bucket f pub with
      | Except.ok r => ⟨f.name, true, some r, none⟩
      | Except.error e => ⟨f.name, false, none, some (wrapMsg (str "upload") e)⟩) := by
  induction files with
  | nil => rfl
  | cons file restFiles ih =>
    simp only [uploadMultiple, upload, List.map_cons]
    cases hres : c.uploadResult bucket file pub <;> simp [hres, ih]

end IkatV2

/-- Claim C4: for every string, `extractKey` returns everything after the last
occurrence of the separator `/` when one is present (any suffix containing no
further separator) and the input unchanged otherwise; in particular the full
URL, bare key and trailing-separator scenarios of the spec hold. -/
theorem extractKey_after_last_separator :
    (∀ pre suf : Str, '/' ∉ suf → extractKey (pre ++ '/' :: suf) = suf) ∧
    (∀ s : Str, '/' ∉ s → extractKey s = s) ∧
    extractKey (str "https://host/u/bucket/photo.jpg") = str "photo.jpg" ∧
    extractKey (str "photo.jpg") = str "photo.jpg" ∧
    extractKey (str "a/b/") = str "" :=
  ⟨extractKey_append_sep, extractKey_of_not_mem, by decide, by decide, by decide⟩

/-- Witness for claim C4 at a concrete input: the URL-shaped string
`ab/cd` whose suffix `cd` holds no separator is mapped to `cd`. -/
theorem extractKey_after_last_separator_witness :
    extractKey ((str "ab") ++ '/' :: (str "cd")) = str "cd" :=
  extractKey_after_last_separator.1 (str "ab") (str "cd") (by decide)

/-- Claim C5: `extractKey` is idempotent. -/
theorem extractKey_idempotent (x : Str) : extractKey (extractKey x) = extractKey x :=
  extractKey_idem x

/-- Claim C9: the result of `extractKey` never contains a separator, the key
each `remove` sends to the remote service is `extractKey` of its argument,
and `deleteMultiple` sends for each raw input exactly the deletion call with
key `extractKey` of that input — the double normalization (once in
`deleteMultiple`, once more inside `remove`) is harmless. -/
theorem extractKey_normalized_key_flow :
    (∀ x : Str, (extractKey x).contains '/' = false) ∧
    (∀ (U D L B : Type) (c : Collab U D L B) (bucket key : Str),
        (IkatV2.remove c bucket key).2 = [Event.deleteCall bucket (extractKey key)]) ∧
    (∀ (U D L B : Type) (c : Collab U D L B) (bucket : Str) (keys : List Str),
        (IkatV2.deleteMultiple c bucket keys).2
          = keys.map (fun k => Event.deleteCall bucket (extractKey k))) :=
  ⟨extractKey_contains_eq_false,
   fun _ _ _ _ _ _ _ => rfl,
   fun _ _ _ _ c bucket keys => IkatV2.deleteMultiple_snd_map c bucket keys⟩

namespace IkatV2

variable {U D L B : Type}

/-- Claim C1: for every collaborator (in particular one whose deletion
fails), bucket, file and supplied (non-empty) old key or URL, `replace`
issues the deletion call on the normalized old reference, swallows its
outcome, still issues the upload, and returns exactly the upload outcome. -/
theorem replace_swallows_delete_failure (c : Collab U D L B) (bucket : Str)
    (file : FileObj) (pub : Bool) (oldRef : Str) (h : oldRef ≠ []) :
    (replace c bucket file (some oldRef) pub).1 = (upload c bucket file pub).1 ∧
    (replace c bucket file (some oldRef) pub).2
        = [Event.deleteCall bucket (extractKey oldRef),
           Event.uploadCall bucket file pub] := by
  refine ⟨?_, ?_⟩
  · simp [replace, if_neg h]
  · simp [replace, if_neg h, remove, upload, extractKey_idem]

/-- Witness for claim C1: against a collaborator whose deletion fails,
`replace` still returns the upload outcome and its trace holds the deletion
call followed by the upload call. -/
theorem replace_swallows_delete_failure_witness :
    (replace failingDeleteCollab (str "b") ⟨str "new.png"⟩
        (some (str "a/old.png")) true).1
      = (upload failingDeleteCollab (str "b") ⟨str "new.png"⟩ true).1 ∧
    (replace failingDeleteCollab (str "b") ⟨str "new.png"⟩
        (some (str "a/old.png")) true).2
      = [Event.deleteCall (str "b") (extractKey (str "a/old.png")),
         Event.uploadCall (str "b") ⟨str "new.png"⟩ true] :=
  replace_swallows_delete_failure failingDeleteCollab (str "b") ⟨str "new.png"⟩
    true (str "a/old.png") (by decide)

/-- Claim C6: with no old key or URL supplied, `replace` is exactly a plain
upload: the same outcome and trace, the trace is the single upload call, and
it holds no deletion call. -/
theorem replace_absent_oldUrl_plain_upload (c : Collab U D L B) (bucket : Str)
    (file : FileObj) (pub : Bool) :
    replace c bucket file none pub = upload c bucket file pub ∧
    (replace c bucket file none pub).2 = [Event.uploadCall bucket file pub] ∧
    ((replace c bucket file none pub).2).filter isDeleteCall = [] :=
  ⟨rfl, rfl, rfl⟩

/-- Claim C8: with the empty string as the old URL, the truthiness guard
treats it like an absent argument: `replace` is exactly a plain upload and
issues no deletion call. -/
theorem replace_empty_oldUrl_plain_upload (c : Collab U D L B) (bucket : Str)
    (file : FileObj) (pub : Bool) :
    replace c bucket file (some []) pub = upload c bucket file pub ∧
    ((replace c bucket file (some []) pub).2).filter isDeleteCall = [] := by
  constructor
  · simp [replace]
  · simp [replace, upload, isDeleteCall]

/-- Claim C2: `deleteMultiple` returns one entry per input key, in input
order; each entry depends only on its own item's collaborator outcome
(so one item's failure cannot affect another's entry and the call as a whole
never fails), a success is recorded as the normalized key with the success
flag, and a failure as the normalized key with the captured error message. -/
theorem deleteMultiple_per_item_results (c : Collab U D L B) (bucket : Str)
    (keys : List Str) :
    ((deleteMultiple c bucket keys).1).length = keys.length ∧
    (deleteMultiple c bucket keys).1 = keys.map (fun k =>
      match c.deleteResult bucket (extractKey k) with
      | Except.ok _ => ⟨extractKey k, true, none⟩
      | Except.error e => ⟨extractKey k, false, some (wrapMsg (str "remove") e)⟩) :=
  ⟨by simp [deleteMultiple_fst_map], deleteMultiple_fst_map c bucket keys⟩

/-- Claim C7: `uploadMultiple` returns one entry per input file, in input
order; each entry depends only on its own file's collaborator outcome (so a
failed upload cannot affect another file's entry and the call as a whole
never fails), a success is recorded with the decoded response and a failure
with the captured error message. -/
theorem uploadMultiple_per_item_results (c : Collab U D L B) (bucket : Str)
    (files : List FileObj) (pub : Bool) :
    ((uploadMultiple c bucket files pub).1).length = files.length ∧
    (uploadMultiple c bucket files pub).1 = files.map (fun f =>
      match c.uploadResult bucket f pub with
      | Except.ok r => ⟨f.name, true, some r, none⟩
      | Except.error e => ⟨f.name, false, none, some (wrapMsg (str "upload") e)⟩) :=
  ⟨by simp [uploadMultiple_fst_map], uploadMultiple_fst_map c bucket files pub⟩

/-- Claim C10: every failed entry of `deleteMultiple` carries an error
message opening with the tag `[remove] `, and every failed entry of
`uploadMultiple` one opening with `[upload] `. -/
theorem batch_entry_error_tagged :
    (∀ (U D L B : Type) (c : Collab U D L B) (bucket : Str) (keys : List Str)
        (entry : DeleteEntry), entry ∈ (deleteMultiple c bucket keys).1 →
        entry.success = false →
        ∃ d, entry.error = some (opTag (str "remove") ++ d)) ∧
    (∀ (U D L B : Type) (c : Collab U D L B) (bucket : Str)
        (files : List FileObj) (pub : Bool) (entry : UploadEntry U),
        entry ∈ (uploadMultiple c bucket files pub).1 →
        entry.success = false →
        ∃ d, entry.error = some (opTag (str "upload") ++ d)) := by
  constructor
  · intro U D L B c bucket keys entry hmem hfail
    rw [deleteMultiple_fst_map] at hmem
    obtain ⟨k, hk, hek⟩ := List.mem_map.mp hmem
    cases hres : c.deleteResult bucket (extractKey k) with
    | ok r =>
      rw [hres] at hek
      subst hek
      exact Bool.noConfusion hfail
    | error e =>
      rw [hres] at hek
      subst hek
      exact ⟨errDetails e, rfl⟩
  · intro U D L B c bucket files pub entry hmem hfail
    rw [uploadMultiple_fst_map] at hmem
    obtain ⟨f, hf, hef⟩ := List.mem_map.mp hmem
    cases hres : c.uploadResult bucket f pub with
    | ok r =>
      rw [hres] at hef
      subst hef
      exact Bool.noConfusion hfail
    | error e =>
      rw [hres] at hef
      subst hef
      exact ⟨errDetails e, rfl⟩

/-- Witness for claim C10: against a collaborator whose calls fail, the
failed entries of a one-item `deleteMultiple` and a one-item
`uploadMultiple` carry the tagged error messages. -/
theorem batch_entry_error_tagged_witness :
    (∃ d, (DeleteEntry.mk (str "x.jpg") false
        (some (wrapMsg (str "remove") ⟨str "boom", none⟩))).error
        = some (opTag (str "remove") ++ d)) ∧
    (∃ d, (UploadEntry.mk (str "f.png") false (none : Option Nat)
        (some (wrapMsg (str "upload") ⟨str "boom", none⟩))).error
        = some (opTag (str "upload") ++ d)) :=
  ⟨batch_entry_error_tagged.1 Nat Nat Nat Nat failingAllCollab (str "b")
      [str "x.jpg"] _ (by decide) rfl,
   batch_entry_error_tagged.2 Nat Nat Nat Nat failingAllCollab (str "b")
      [⟨str "f.png"⟩] true _ (by decide) rfl⟩

/-- Claim C3 fails as stated: with a response body whose message field is
present but empty, the wrapped message uses the transport message, not the
(empty) body message, because the source falls back on JavaScript
truthiness. -/
theorem upload_empty_body_message_counterexample :
    emptyMsgErr.responseMessage = some (str "") ∧
    (upload emptyMsgCollab (str "b") ⟨str "f.png"⟩ true).1
        = Except.error (opTag (str "upload") ++ str "network down") ∧
    str "network down" ≠ str "" :=
  ⟨rfl, rfl, by decide⟩

/-- Claim C3 (amended): every single-item operation re-raises any
collaborator failure as `[<operationName>] <details>` — so every such
message opens with the operation tag — where `<details>` is the response
body's message field when present and non-empty, else the underlying
transport error's message. -/
theorem single_op_error_message_format (c : Collab U D L B)
    (bucket key : Str) (file : FileObj) (pub : Bool) (e : HttpErr) :
    (c.uploadResult bucket file pub = Except.error e →
        (upload c bucket file pub).1
          = Except.error (opTag (str "upload") ++ errDetails e)) ∧
    (c.listResult bucket = Except.error e →
        (list c bucket).1 = Except.error (opTag (str "list") ++ errDetails e)) ∧
    (c.deleteResult bucket (extractKey key) = Except.error e →
        (remove c bucket key).1
          = Except.error (opTag (str "remove") ++ errDetails e)) ∧
    (c.deleteBucketResult bucket = Except.error e →
        (deleteBucket c bucket).1
          = Except.error (opTag (str "deleteBucket") ++ errDetails e)) ∧
    (∀ m, e.responseMessage = some m → m ≠ [] → errDetails e = m) ∧
    (e.responseMessage = some [] → errDetails e = e.message) ∧
    (e.responseMessage = none → errDetails e = e.message) := by
  refine ⟨?_, ?_, ?_, ?_, ?_, ?_, ?_⟩
  · intro h
    simp [upload, h, wrapMsg]
  · intro h
    simp [list, h, wrapMsg]
  · intro h
    simp [remove, h, wrapMsg]
  · intro h
    simp [deleteBucket, h, wrapMsg]
  · intro m hm hne
    simp [errDetails, hm, hne]
  · intro hm
    simp [errDetails, hm]
  · intro hm
    simp [errDetails, hm]

/-- Witness for the amended claim C3: the failing collaborator with an
empty body message yields the upload error `[upload] <details>` with the
transport message as details. -/
theorem single_op_error_message_format_witness :
    (upload emptyMsgCollab (str "b") ⟨str "f.png"⟩ true).1
      = Except.error (opTag (str "upload") ++ errDetails emptyMsgErr) :=
  (single_op_error_message_format emptyMsgCollab (str "b") (str "k")
      ⟨str "f.png"⟩ true emptyMsgErr).1 rfl

end IkatV2

end IkatApi
